import Mathlib

/- Verification of the policy-gradient networks of this repository:
   cs285/networks/policies.py (MLPPolicy, MLPPolicyPG) and
   cs285/networks/critics.py (ValueCritic).

   Embedding conventions:
   * float tensors are modelled by exact rationals;
   * a 1-D tensor of length n is kept distinct from a (n, 1) or (1, n)
     matrix, because PyTorch broadcasting treats them differently;
   * the autograd engine behind loss.backward() is modelled by
     forward-mode dual numbers: seeding one parameter with derivative 1
     and reading the derivative part of the scalar loss yields exactly
     the gradient entry that reverse mode computes;
   * the transcendental kernels of the torch backend (tanh activation,
     exp, log, sqrt) are opaque parameters of the development, bundled
     with their derivatives in a NumModel; no claim below depends on
     their analytic values, only on how the repository composes them. -/

/-- Dual numbers over ℚ: a value together with a derivative. -/
structure DQ where
  re : ℚ
  du : ℚ
deriving DecidableEq

def DQ.ofQ (q : ℚ) : DQ := ⟨q, 0⟩

def DQ.add (x y : DQ) : DQ := ⟨x.re + y.re, x.du + y.du⟩

def DQ.mul (x y : DQ) : DQ := ⟨x.re * y.re, x.re * y.du + x.du * y.re⟩

def DQ.neg (x : DQ) : DQ := ⟨-x.re, -x.du⟩

def DQ.sub (x y : DQ) : DQ := ⟨x.re - y.re, x.du - y.du⟩

def DQ.div (x y : DQ) : DQ := ⟨x.re / y.re, (x.du * y.re - x.re * y.du) / (y.re * y.re)⟩

def DQ.divN (x : DQ) (n : ℕ) : DQ := ⟨x.re / n, x.du / n⟩

/-- Apply a backend scalar function given with its derivative. -/
def DQ.appD (f fd : ℚ → ℚ) (x : DQ) : DQ := ⟨f x.re, fd x.re * x.du⟩

/-- The scalar operations a numeric backend must provide.  The same
source translation below is run at `ℚ` (plain values, as under
torch.no_grad) and at `DQ` (gradient tracking). -/
structure NumOps (α : Type) where
  cst : ℚ → α
  add : α → α → α
  mul : α → α → α
  neg : α → α
  sub : α → α → α
  div : α → α → α
  divN : α → ℕ → α
  appD : (ℚ → ℚ) → (ℚ → ℚ) → α → α

def qOps : NumOps ℚ :=
  { cst := id, add := (· + ·), mul := (· * ·), neg := (- ·), sub := (· - ·),
    div := (· / ·), divN := fun x n => x / n, appD := fun f _ x => f x }

def dOps : NumOps DQ :=
  { cst := DQ.ofQ, add := DQ.add, mul := DQ.mul, neg := DQ.neg, sub := DQ.sub,
    div := DQ.div, divN := DQ.divN, appD := DQ.appD }

/-- The transcendental kernels of the torch backend together with
their derivatives, treated as parameters of the development. `act` is
the hidden-layer activation of the MLP. `logSqrt2pi` models the
additive constant log √(2π) of the Gaussian log-density. -/
structure NumModel where
  act : ℚ → ℚ
  actD : ℚ → ℚ
  exp : ℚ → ℚ
  expD : ℚ → ℚ
  log : ℚ → ℚ
  logD : ℚ → ℚ
  sqrt : ℚ → ℚ
  logSqrt2pi : ℚ

/-- A 2-D tensor: list of rows. -/
abbrev MatA (α : Type) := List (List α)

/-- A tensor that is either 1-D, of shape (n,), or 2-D, of shape
(rows, cols).  The distinction matters for PyTorch broadcasting. -/
inductive TensorA (α : Type) where
  | t1 : List α → TensorA α
  | t2 : MatA α → TensorA α
deriving DecidableEq

/-- Broadcasting view: a 1-D tensor of length n broadcasts like a
(1, n) matrix (PyTorch pads shapes with 1 on the left). -/
def TensorA.toMat : TensorA α → MatA α
  | .t1 v => [v]
  | .t2 m => m

def matRows (m : MatA α) : ℕ := m.length

def matCols (m : MatA α) : ℕ := (m.headD []).length

/-- PyTorch rule for combining two sizes of one dimension. -/
def bdim (a b : ℕ) : Option ℕ :=
  if a = b then some a else if a = 1 then some b else if b = 1 then some a else none

/-- Read entry (i, j) from a matrix seen through broadcasting: a
dimension of size 1 is repeated. -/
def bget (O : NumOps α) (m : MatA α) (i j : ℕ) : α :=
  let row := m.getD (if m.length = 1 then 0 else i) []
  row.getD (if row.length = 1 then 0 else j) (O.cst 0)

/-- Elementwise binary operation with PyTorch broadcasting. Fails
(like torch raising a RuntimeError) when the shapes are incompatible. -/
def broadcastOp (O : NumOps α) (f : α → α → α) (a b : MatA α) : Option (MatA α) := do
  let r ← bdim (matRows a) (matRows b)
  let c ← bdim (matCols a) (matCols b)
  some ((List.range r).map fun i => (List.range c).map fun j => f (bget O a i j) (bget O b i j))

def matSum (O : NumOps α) (m : MatA α) : α :=
  m.foldl (fun acc row => row.foldl O.add acc) (O.cst 0)

/-- torch .mean(): sum of all entries divided by their number. -/
def matMean (O : NumOps α) (m : MatA α) : α :=
  O.divN (matSum O m) (matRows m * matCols m)

/-- Indexed map with explicit start index (own recursion, so that the
induction lemmas below are immediate). -/
def mapIdxFrom (f : ℕ → α → β) (n : ℕ) : List α → List β
  | [] => []
  | x :: xs => f n x :: mapIdxFrom f (n + 1) xs

def mapIdxQ (f : ℕ → α → β) (l : List α) : List β := mapIdxFrom f 0 l

/-- One torch.nn.Linear layer: weight of shape (out, in) and bias of
shape (out,). -/
structure LayerA (α : Type) where
  weight : MatA α
  bias : List α
deriving DecidableEq

abbrev Layer := LayerA ℚ

/-- An MLP as built by pytorch_util.build_mlp: a list of Linear
layers; the hidden activation is applied after every layer except the
last one. -/
abbrev MLPA (α : Type) := List (LayerA α)

abbrev MLPq := MLPA ℚ

def dot (O : NumOps α) (r x : List α) : α :=
  (List.zipWith O.mul r x).foldl O.add (O.cst 0)

/-- Apply one Linear layer to a vector; fails (torch matmul dimension
error) when the input length does not match the weight columns. -/
def affineApply (O : NumOps α) (l : LayerA α) (x : List α) : Option (List α) :=
  if (l.weight.all fun r => r.length == x.length) && (l.bias.length == l.weight.length)
  then some (List.zipWith (fun r b => O.add (dot O r x) b) l.weight l.bias)
  else none

/-- Run the MLP on one input vector: Linear, activation, ...,
Linear (no activation after the output layer). -/
def mlpApply (O : NumOps α) (M : NumModel) : MLPA α → List α → Option (List α)
  | [], x => some x
  | [l], x => affineApply O l x
  | l :: l2 :: rest, x => do
      let y ← affineApply O l x
      mlpApply O M (l2 :: rest) (y.map (O.appD M.act M.actD))

/-- Option-valued map over a list, failing when any element fails. -/
def optMapList (f : α → Option β) : List α → Option (List β)
  | [] => some []
  | x :: xs => do
      let y ← f x
      let ys ← optMapList f xs
      some (y :: ys)

/-- Row-wise application of the MLP to a batch of observations. -/
def mlpApplyBatch (O : NumOps α) (M : NumModel) (net : MLPA α) (obs : MatA α) :
    Option (MatA α) :=
  optMapList (mlpApply O M net) obs

/-- The errors a call can raise: a backend tensor error (negative
dimension at construction), a shape/broadcast RuntimeError, the
NotImplementedError of the base-class update, and a missing or
mismatched attribute (AttributeError / TypeError). -/
inductive Err where
  | backend
  | shape
  | notImplemented
  | badInput
deriving DecidableEq

/-- Modelled from the spec: pytorch_util.build_mlp is imported by both
source files but its file is not under src/.  The spec describes it as
a feed-forward stack of affine transforms with nonlinear activations,
`n_layers` hidden layers of width `layer_size`, mapping `input_size` to
`output_size`.  `linearDims` lists the (in, out) pair of every Linear
layer; with n_layers ≤ 0 (Python range is then empty) the net is a
single Linear. -/
def linearDims (input output n size : ℤ) : List (ℤ × ℤ) :=
  if n ≤ 0 then [(input, output)]
  else (input, size) :: (List.replicate (n - 1).toNat (size, size) ++ [(size, output)])

/-- Build one Linear layer; the backend initialization of weights and
biases is an oracle (wf, bf) indexed by layer and position. -/
def mkLayer (inF outF li : ℕ) (wf : ℕ → ℕ → ℕ → ℚ) (bf : ℕ → ℕ → ℚ) : Layer :=
  { weight := (List.range outF).map fun i => (List.range inF).map fun j => wf li i j,
    bias := (List.range outF).map fun i => bf li i }

/-- Modelled from the spec: build_mlp (see linearDims).  Creating a
torch Linear with a negative dimension raises, so construction fails
on any negative layer size; sizes 0 are legal zero-sized tensors. -/
def build_mlp (input output n size : ℤ) (wf : ℕ → ℕ → ℕ → ℚ) (bf : ℕ → ℕ → ℚ) :
    Except Err MLPq :=
  let dims := linearDims input output n size
  if dims.all fun d => decide (0 ≤ d.1) && decide (0 ≤ d.2) then
    .ok (mapIdxQ (fun li d => mkLayer d.1.toNat d.2.toNat li wf bf) dims)
  else .error .backend

def zerosVec (v : List ℚ) : List ℚ := v.map fun _ => 0

def zerosMat (m : MatA ℚ) : MatA ℚ := m.map zerosVec

def zerosLayer (l : Layer) : Layer := ⟨zerosMat l.weight, zerosVec l.bias⟩

def zerosMLP (n : MLPq) : MLPq := n.map zerosLayer

/-- torch.optim.Adam state for one component: step count and first and
second moment estimates, shaped like the parameters they track (net
parameters, and the extra logstd vector of a continuous policy). -/
structure AdamSt where
  t : ℕ
  mNet : MLPq
  vNet : MLPq
  mStd : List ℚ
  vStd : List ℚ
deriving DecidableEq

/-- The attribute state MLPPolicy.__init__ leaves behind: exactly one
of logits_net (discrete) or mean_net plus logstd (continuous) exists. -/
structure MLPPolicyParams where
  ac_dim : ℤ
  ob_dim : ℤ
  logits_net : Option MLPq
  mean_net : Option MLPq
  logstd : Option (List ℚ)
  discrete : Bool
deriving DecidableEq

/-- A policy together with its optimizer: the mutable state owned by
one MLPPolicy object. -/
structure MLPPolicy where
  params : MLPPolicyParams
  opt : AdamSt
  lr : ℚ
deriving DecidableEq

/-- A critic together with its optimizer (critics.py ValueCritic). -/
structure ValueCritic where
  network : MLPq
  opt : AdamSt
  lr : ℚ
deriving DecidableEq

/-- MLPPolicy.__init__: builds logits_net when discrete, else mean_net
plus the learned logstd initialised to torch.zeros(ac_dim), and an
Adam optimizer over exactly those parameters.  The source performs no
dimension validation of its own; failures come from the backend. -/
def MLPPolicy.init (ac_dim ob_dim : ℤ) (discrete : Bool) (n_layers layer_size : ℤ)
    (learning_rate : ℚ) (wf : ℕ → ℕ → ℕ → ℚ) (bf : ℕ → ℕ → ℚ) :
    Except Err MLPPolicy :=
  if discrete then do
    let net ← build_mlp ob_dim ac_dim n_layers layer_size wf bf
    .ok { params := { ac_dim := ac_dim, ob_dim := ob_dim, logits_net := some net,
                      mean_net := none, logstd := none, discrete := true },
          opt := ⟨0, zerosMLP net, zerosMLP net, [], []⟩, lr := learning_rate }
  else do
    let net ← build_mlp ob_dim ac_dim n_layers layer_size wf bf
    if ac_dim < 0 then .error .backend
    else
      let ls : List ℚ := List.replicate ac_dim.toNat 0
      .ok { params := { ac_dim := ac_dim, ob_dim := ob_dim, logits_net := none,
                        mean_net := some net, logstd := some ls, discrete := false },
            opt := ⟨0, zerosMLP net, zerosMLP net, zerosVec ls, zerosVec ls⟩,
            lr := learning_rate }

/-- ValueCritic.__init__: a net mapping ob_dim to 1, with Adam. -/
def ValueCritic.init (ob_dim n_layers layer_size : ℤ) (learning_rate : ℚ)
    (wf : ℕ → ℕ → ℕ → ℚ) (bf : ℕ → ℕ → ℚ) : Except Err ValueCritic :=
  (build_mlp ob_dim 1 n_layers layer_size wf bf).map fun net =>
    { network := net, opt := ⟨0, zerosMLP net, zerosMLP net, [], []⟩,
      lr := learning_rate }

/-- The transient distribution object MLPPolicy.forward returns:
Categorical(logits) or Normal(mean, std). -/
inductive DistA (α : Type) where
  | categorical (logits : MatA α)
  | normal (mean : MatA α) (std : List α)
deriving DecidableEq

/-- MLPPolicy.forward on a batch: discrete gives
Categorical(logits = logits_net(obs)); continuous gives
Normal(mean_net(obs), exp(logstd)). -/
def forwardNets (O : NumOps α) (M : NumModel) (discrete : Bool)
    (lnet mnet : Option (MLPA α)) (lstd : Option (List α)) (obs : MatA α) :
    Except Err (DistA α) :=
  if discrete then
    match lnet with
    | some net =>
      match mlpApplyBatch O M net obs with
      | some probs => .ok (.categorical probs)
      | none => .error .shape
    | none => .error .badInput
  else
    match mnet, lstd with
    | some net, some ls =>
      match mlpApplyBatch O M net obs with
      | some means => .ok (.normal means (ls.map (O.appD M.exp M.expD)))
      | none => .error .shape
    | _, _ => .error .badInput

/-- torch.distributions.Categorical.log_prob: for taken action a of
example i, logits[i][a] - log(Σ_k exp(logits[i][k])).  The action
batch broadcasts against the distribution batch; the result is a 1-D
tensor.  (Callers of this repository pass in-range indices; index
validity is outside the claims, so the row is read with a default.) -/
def catLogProb (O : NumOps α) (M : NumModel) (logits : MatA α) (acts : List ℕ) :
    Option (TensorA α) := do
  let n ← bdim acts.length logits.length
  some (.t1 ((List.range n).map fun i =>
    let row := logits.getD (if logits.length = 1 then 0 else i) []
    let a := acts.getD (if acts.length = 1 then 0 else i) 0
    let lse := O.appD M.log M.logD ((row.map (O.appD M.exp M.expD)).foldl O.add (O.cst 0))
    O.sub (row.getD a (O.cst 0)) lse))

/-- torch.distributions.Normal.log_prob: elementwise
-(x-μ)²/(2σ²) - log σ - log √(2π), with value/mean broadcasting; the
scale vector broadcasts along the batch dimension.  The result is 2-D,
one entry per action dimension (torch does not sum them). -/
def normalLogProb (O : NumOps α) (M : NumModel) (mean : MatA α) (std : List α)
    (value : MatA α) : Option (TensorA α) := do
  let r ← bdim (matRows value) (matRows mean)
  let c ← bdim (matCols value) (matCols mean)
  some (.t2 ((List.range r).map fun i => (List.range c).map fun j =>
    let x := bget O value i j
    let mu := bget O mean i j
    let s := std.getD (if std.length = 1 then 0 else j) (O.cst 0)
    let d := O.sub x mu
    O.sub (O.sub (O.neg (O.div (O.mul d d) (O.mul (O.cst 2) (O.mul s s))))
      (O.appD M.log M.logD s)) (O.cst M.logSqrt2pi)))

/-- The action batch given to update: indices for a discrete policy,
an (N, ac_dim) matrix for a continuous one. -/
inductive ActIn where
  | disc (acts : List ℕ)
  | cont (acts : MatA ℚ)
deriving DecidableEq

/-- The loss expression of MLPPolicyPG.update:
-(log_probs * advantages.unsqueeze(-1)).mean(), with PyTorch
broadcasting between the log-prob tensor and the (N, 1) advantage
column. -/
def pgLossRaw (O : NumOps α) (lp : TensorA α) (adv : List α) : Option α := do
  let advU : MatA α := adv.map fun a => [a]
  let prod ← broadcastOp O O.mul lp.toMat advU
  some (O.neg (matMean O prod))

/-- The whole loss pipeline of MLPPolicyPG.update, generic in the
backend so that the same translation runs with and without gradient
tracking: forward to a distribution, log_prob of the taken actions,
then pgLossRaw.  obs, acts and adv are the plain numeric inputs. -/
def pgLossGen (O : NumOps α) (M : NumModel) (lnet mnet : Option (MLPA α))
    (lstd : Option (List α)) (discrete : Bool) (obs : MatA ℚ) (acts : ActIn)
    (adv : List ℚ) : Except Err α := do
  let dist ← forwardNets O M discrete lnet mnet lstd (obs.map (List.map O.cst))
  let lp ← match dist, acts with
    | .categorical lg, .disc a => (catLogProb O M lg a).elim (Except.error .shape) Except.ok
    | .normal mu sd, .cont a =>
      (normalLogProb O M mu sd (a.map (List.map O.cst))).elim (Except.error .shape) Except.ok
    | _, _ => Except.error .badInput
  (pgLossRaw O lp (adv.map O.cst)).elim (Except.error .shape) Except.ok

def liftVec (v : List ℚ) : List DQ := v.map DQ.ofQ

def liftLayer (l : Layer) : LayerA DQ :=
  ⟨l.weight.map liftVec, liftVec l.bias⟩

def liftMLP (n : MLPq) : MLPA DQ := n.map liftLayer

/-- A parameter position inside a component: a weight entry, a bias
entry, or an entry of the continuous policy's logstd vector. -/
inductive PPos where
  | w (layer i j : ℕ)
  | b (layer i : ℕ)
  | std (i : ℕ)
deriving DecidableEq

/-- Lift a layer to dual numbers, seeding derivative 1 at position p. -/
def seedLayer (li : ℕ) (p : PPos) (l : Layer) : LayerA DQ :=
  { weight := mapIdxQ (fun i row => mapIdxQ (fun j q =>
      ⟨q, if p = .w li i j then 1 else 0⟩) row) l.weight,
    bias := mapIdxQ (fun i q => ⟨q, if p = .b li i then 1 else 0⟩) l.bias }

def seedMLP (p : PPos) (net : MLPq) : MLPA DQ :=
  mapIdxQ (fun li l => seedLayer li p l) net

def seedStd (p : PPos) (v : List ℚ) : List DQ :=
  mapIdxQ (fun i q => ⟨q, if p = .std i then 1 else 0⟩) v

def seedNetOpt (p : PPos) (net : Option MLPq) : Option (MLPA DQ) :=
  net.map (seedMLP p)

def seedStdOpt (p : PPos) (v : Option (List ℚ)) : Option (List DQ) :=
  v.map (seedStd p)

/-- The policy loss on dual numbers with parameter position p seeded:
its derivative part is the gradient entry loss.backward() produces. -/
def pgLossD (M : NumModel) (pp : MLPPolicyParams) (obs : MatA ℚ) (acts : ActIn)
    (adv : List ℚ) (p : PPos) : Except Err DQ :=
  pgLossGen dOps M (seedNetOpt p pp.logits_net) (seedNetOpt p pp.mean_net)
    (seedStdOpt p pp.logstd) pp.discrete obs acts adv

def gradOfExcept (e : Except Err DQ) : ℚ :=
  match e with
  | .ok d => d.du
  | .error _ => 0

/-- Build a net-shaped structure of values of f at each position. -/
def gradNetOf (f : PPos → ℚ) (net : MLPq) : MLPq :=
  mapIdxQ (fun li l =>
    { weight := mapIdxQ (fun i r => mapIdxQ (fun j _ => f (.w li i j)) r) l.weight,
      bias := mapIdxQ (fun i _ => f (.b li i)) l.bias }) net

def gradVecOf (f : PPos → ℚ) (v : List ℚ) : List ℚ :=
  mapIdxQ (fun i _ => f (.std i)) v

/-- The parameter set the policy's Adam optimizer owns (the one net
that exists). -/
def activeNet (pp : MLPPolicyParams) : MLPq :=
  (if pp.discrete then pp.logits_net else pp.mean_net).getD []

/-- The gradients loss.backward() leaves on the policy's net. -/
def pgGradNet (M : NumModel) (pp : MLPPolicyParams) (obs : MatA ℚ) (acts : ActIn)
    (adv : List ℚ) : MLPq :=
  gradNetOf (fun p => gradOfExcept (pgLossD M pp obs acts adv p)) (activeNet pp)

/-- The gradients loss.backward() leaves on logstd (continuous). -/
def pgGradStd (M : NumModel) (pp : MLPPolicyParams) (obs : MatA ℚ) (acts : ActIn)
    (adv : List ℚ) : List ℚ :=
  gradVecOf (fun p => gradOfExcept (pgLossD M pp obs acts adv p)) (pp.logstd.getD [])

/-- torch.optim.Adam defaults: betas = (0.9, 0.999), eps = 1e-8. -/
def adamBeta1 : ℚ := 9 / 10

def adamBeta2 : ℚ := 999 / 1000

def adamEps : ℚ := 1 / 100000000

/-- One Adam update of a single scalar parameter p with gradient g and
moments m, v at (already incremented) step t; returns the new
parameter and moments. -/
def adamPoint (lr : ℚ) (sqrtF : ℚ → ℚ) (t : ℕ) (p g m v : ℚ) : ℚ × ℚ × ℚ :=
  let m2 := adamBeta1 * m + (1 - adamBeta1) * g
  let v2 := adamBeta2 * v + (1 - adamBeta2) * g * g
  let mhat := m2 / (1 - adamBeta1 ^ t)
  let vhat := v2 / (1 - adamBeta2 ^ t)
  (p - lr * mhat / (sqrtF vhat + adamEps), m2, v2)

def lookV (v : List ℚ) (i : ℕ) : ℚ := v.getD i 0

def lookM (m : MatA ℚ) (i j : ℕ) : ℚ := (m.getD i []).getD j 0

def lookLayer (n : MLPq) (li : ℕ) : Layer := n.getD li ⟨[], []⟩

def adamVecStep (sel : ℚ × ℚ × ℚ → ℚ) (lr : ℚ) (sqrtF : ℚ → ℚ) (t : ℕ)
    (p g m v : List ℚ) : List ℚ :=
  mapIdxQ (fun i x => sel (adamPoint lr sqrtF t x (lookV g i) (lookV m i) (lookV v i))) p

def adamNetStep (sel : ℚ × ℚ × ℚ → ℚ) (lr : ℚ) (sqrtF : ℚ → ℚ) (t : ℕ)
    (p g m v : MLPq) : MLPq :=
  mapIdxQ (fun li l =>
    { weight := mapIdxQ (fun i r => mapIdxQ (fun j x =>
        sel (adamPoint lr sqrtF t x (lookM (lookLayer g li).weight i j)
          (lookM (lookLayer m li).weight i j) (lookM (lookLayer v li).weight i j))) r)
        l.weight,
      bias := mapIdxQ (fun i x =>
        sel (adamPoint lr sqrtF t x (lookV (lookLayer g li).bias i)
          (lookV (lookLayer m li).bias i) (lookV (lookLayer v li).bias i))) l.bias })
    p

def selP (x : ℚ × ℚ × ℚ) : ℚ := x.1

def selM (x : ℚ × ℚ × ℚ) : ℚ := x.2.1

def selV (x : ℚ × ℚ × ℚ) : ℚ := x.2.2

/-- MLPPolicyPG.update: zero_grad, forward, log_prob,
loss = -(log_probs * advantages.unsqueeze(-1)).mean(), backward, one
Adam step, and the diagnostics dict with key Actor Loss.  An exception
anywhere before optimizer.step() leaves the policy untouched, which
the Except return type makes explicit.  (The line N = obs.shape[1] of
the source binds an unused local and is dropped.) -/
def MLPPolicyPG.update (M : NumModel) (pol : MLPPolicy) (obs : MatA ℚ) (acts : ActIn)
    (adv : List ℚ) : Except Err (MLPPolicy × List (String × ℚ)) := do
  let loss ← pgLossGen qOps M pol.params.logits_net pol.params.mean_net
    pol.params.logstd pol.params.discrete obs acts adv
  let gnet := pgGradNet M pol.params obs acts adv
  let gstd := pgGradStd M pol.params obs acts adv
  let t2 := pol.opt.t + 1
  let netP := adamNetStep selP pol.lr M.sqrt t2 (activeNet pol.params) gnet pol.opt.mNet pol.opt.vNet
  let netM := adamNetStep selM pol.lr M.sqrt t2 (activeNet pol.params) gnet pol.opt.mNet pol.opt.vNet
  let netV := adamNetStep selV pol.lr M.sqrt t2 (activeNet pol.params) gnet pol.opt.mNet pol.opt.vNet
  let lstd := pol.params.logstd.getD []
  let stdP := adamVecStep selP pol.lr M.sqrt t2 lstd gstd pol.opt.mStd pol.opt.vStd
  let stdM := adamVecStep selM pol.lr M.sqrt t2 lstd gstd pol.opt.mStd pol.opt.vStd
  let stdV := adamVecStep selV pol.lr M.sqrt t2 lstd gstd pol.opt.mStd pol.opt.vStd
  let pp := pol.params
  let params2 := if pp.discrete then { pp with logits_net := some netP }
                 else { pp with mean_net := some netP, logstd := some stdP }
  .ok ({ params := params2, opt := ⟨t2, netM, netV, stdM, stdV⟩, lr := pol.lr },
       [("Actor Loss", loss)])

/-- MLPPolicy.update of the base class: raise NotImplementedError.  It
touches no parameter or optimizer state. -/
def MLPPolicy.update (pol : MLPPolicy) (obs : MatA ℚ) (acts : ActIn) (adv : List ℚ) :
    Except Err (MLPPolicy × List (String × ℚ)) :=
  Except.error .notImplemented

/-- ValueCritic.forward: self.network(obs). -/
def ValueCritic.forward (M : NumModel) (c : ValueCritic) (obs : MatA ℚ) :
    Option (MatA ℚ) :=
  mlpApplyBatch qOps M c.network obs

/-- The loss expression of ValueCritic.update:
nn.MSELoss()(self(obs), q_values) with q_values a 1-D target batch:
broadcast subtraction, square, mean. -/
def mseLossGen (O : NumOps α) (M : NumModel) (net : MLPA α) (obs : MatA ℚ)
    (q : List ℚ) : Except Err α := do
  let y ← (mlpApplyBatch O M net (obs.map (List.map O.cst))).elim
    (Except.error .shape) Except.ok
  let d ← (broadcastOp O O.sub y [q.map O.cst]).elim (Except.error .shape) Except.ok
  .ok (matMean O (d.map (List.map fun x => O.mul x x)))

/-- The gradients loss.backward() leaves on the critic's net. -/
def criticGradNet (M : NumModel) (net : MLPq) (obs : MatA ℚ) (q : List ℚ) : MLPq :=
  gradNetOf (fun p => gradOfExcept (mseLossGen dOps M (seedMLP p net) obs q)) net

/-- ValueCritic.update: zero_grad, forward, MSE loss, backward, one
Adam step, diagnostics dict with key Baseline Loss. -/
def ValueCritic.update (M : NumModel) (c : ValueCritic) (obs : MatA ℚ) (q : List ℚ) :
    Except Err (ValueCritic × List (String × ℚ)) := do
  let loss ← mseLossGen qOps M c.network obs q
  let g := criticGradNet M c.network obs q
  let t2 := c.opt.t + 1
  let netP := adamNetStep selP c.lr M.sqrt t2 c.network g c.opt.mNet c.opt.vNet
  let netM := adamNetStep selM c.lr M.sqrt t2 c.network g c.opt.mNet c.opt.vNet
  let netV := adamNetStep selV c.lr M.sqrt t2 c.network g c.opt.mNet c.opt.vNet
  .ok ({ network := netP, opt := ⟨t2, netM, netV, [], []⟩, lr := c.lr },
       [("Baseline Loss", loss)])

/-- Inverse-CDF sampling of Categorical(logits) with probabilities
exp(l k)/Σ exp(l j) and a uniform draw u from the backend sampler:
the least k whose cumulative unnormalized mass exceeds u·total, else
the last category.  By construction the sample is a category index. -/
def catSample (M : NumModel) (logits : List ℚ) (u : ℚ) : ℕ :=
  match (List.range logits.length).find?
    (fun k => decide (u * (logits.map M.exp).sum
      < ((logits.map M.exp).take (k + 1)).sum)) with
  | some k => k
  | none => logits.length - 1

/-- The sampled action get_action returns: a plain integer index for a
discrete policy, a plain numeric vector for a continuous one. -/
inductive ActionOut where
  | d (a : ℕ)
  | c (a : List ℚ)
deriving DecidableEq

/-- MLPPolicy.get_action: under torch.no_grad(), forward on the single
observation, sample from the distribution, return a plain numpy
value.  u is the uniform draw of the categorical sampler and z the
standard-normal draw of the Gaussian sampler, both supplied by the
backend RNG.  It runs on the plain (non-dual) pipeline: no gradient is
tracked and no state is written. -/
def MLPPolicy.get_action (M : NumModel) (pol : MLPPolicy) (obs : List ℚ) (u : ℚ)
    (z : List ℚ) : Except Err ActionOut := do
  let dist ← forwardNets qOps M pol.params.discrete pol.params.logits_net
    pol.params.mean_net pol.params.logstd [obs]
  match dist with
  | .categorical lg => .ok (.d (catSample M (lg.getD 0 []) u))
  | .normal mu sd =>
    .ok (.c (List.zipWith (fun m sz => m + sz) (mu.getD 0 [])
      (List.zipWith (fun s z0 => s * z0) sd z)))

/-- get_action with the surrounding mutable state made explicit: the
source method body only reads the nets (under no_grad) and returns a
detached numpy value, so its state-passing form returns the component
unchanged. -/
def getActionCall (M : NumModel) (pol : MLPPolicy) (obs : List ℚ) (u : ℚ)
    (z : List ℚ) : MLPPolicy × Except Err ActionOut :=
  (pol, MLPPolicy.get_action M pol obs u z)

/-- Spec-side definition (compared against the code, written from the
claim's words): the policy-gradient surrogate loss as the negative
mean, over the batch, of the example's total log-probability of the
taken action times that example's advantage scalar. -/
def specActorLoss (M : NumModel) (pp : MLPPolicyParams) (obs : MatA ℚ) (acts : ActIn)
    (adv : List ℚ) : Except Err ℚ := do
  let dist ← forwardNets qOps M pp.discrete pp.logits_net pp.mean_net pp.logstd obs
  let lps ← match dist, acts with
    | .categorical lg, .disc a =>
      match catLogProb qOps M lg a with
      | some (.t1 v) => Except.ok v
      | _ => Except.error .shape
    | .normal mu sd, .cont a =>
      match normalLogProb qOps M mu sd a with
      | some (.t2 m) => Except.ok (m.map fun row => row.sum)
      | _ => Except.error .shape
    | _, _ => Except.error Err.badInput
  if lps.length = adv.length then
    .ok (-((List.zipWith (· * ·) lps adv).sum / lps.length))
  else .error .shape

/-- Spec-side definition: mean-squared error between the critic's
predictions (one scalar per observation) and the targets, one squared
error term per observation. -/
def specBaselineLoss (M : NumModel) (net : MLPq) (obs : MatA ℚ) (q : List ℚ) :
    Except Err ℚ := do
  let y ← (mlpApplyBatch qOps M net obs).elim (Except.error Err.shape) Except.ok
  let preds := y.map fun row => row.getD 0 0
  if preds.length = q.length then
    .ok ((List.zipWith (fun a b => (a - b) * (a - b)) preds q).sum / q.length)
  else .error .shape

/-- MLPPolicy.forward as a function of the component: the distribution
depends only on the stored parameters (and the backend kernels). -/
def MLPPolicy.forward (M : NumModel) (pol : MLPPolicy) (obs : MatA ℚ) :
    Except Err (DistA ℚ) :=
  forwardNets qOps M pol.params.discrete pol.params.logits_net pol.params.mean_net
    pol.params.logstd obs

instance [DecidableEq ε] [DecidableEq α] : DecidableEq (Except ε α) := fun a b =>
  match a, b with
  | .ok x, .ok y =>
    if h : x = y then isTrue (congrArg Except.ok h)
    else isFalse (fun hh => h (Except.ok.inj hh))
  | .error x, .error y =>
    if h : x = y then isTrue (congrArg Except.error h)
    else isFalse (fun hh => h (Except.error.inj hh))
  | .ok x, .error y => isFalse (fun hh => Except.noConfusion hh)
  | .error x, .ok y => isFalse (fun hh => Except.noConfusion hh)

/- The Batteries rational-number operations are irreducible by
default; the closed evaluations below let the elaborator reduce them
(the kernel is unaffected by reducibility attributes). -/
attribute [local semireducible] Rat.add Rat.mul Rat.sub Rat.inv

/-- A concrete instantiation of the backend kernels, used in the
closed evaluations below.  The claims it witnesses depend only on how
the repository composes the kernels, never on their analytic values. -/
def testModel : NumModel :=
  { act := id, actD := fun _ => 1, exp := fun _ => 1, expD := fun _ => 0,
    log := id, logD := fun _ => 1, sqrt := fun _ => 1, logSqrt2pi := 0 }

/-- Weight-init oracle: row index plus one. -/
def wInc : ℕ → ℕ → ℕ → ℚ := fun _ i _ => (i : ℚ) + 1

/-- Bias-init oracle: zero. -/
def bZero : ℕ → ℕ → ℚ := fun _ _ => 0

/-- Zero weight-init oracle. -/
def wZero : ℕ → ℕ → ℕ → ℚ := fun _ _ _ => 0

/-- The discrete policy (ac_dim 2, ob_dim 1, one Linear layer, weight
[[1],[2]], bias 0, lr 1) used to evaluate the C1 failing input. -/
def polC1 : MLPPolicy :=
  { params := { ac_dim := 2, ob_dim := 1, logits_net := some [⟨[[1], [2]], [0, 0]⟩],
                mean_net := none, logstd := none, discrete := true },
    opt := ⟨0, [⟨[[0], [0]], [0, 0]⟩], [⟨[[0], [0]], [0, 0]⟩], [], []⟩, lr := 1 }

/-- The critic (ob_dim 1, one Linear layer, weight [[1]], bias 0,
lr 1) used to evaluate the C2 failing input. -/
def criticC2 : ValueCritic :=
  { network := [⟨[[1]], [0]⟩],
    opt := ⟨0, [⟨[[0]], [0]⟩], [⟨[[0]], [0]⟩], [], []⟩, lr := 1 }

/-- Claim C1: the loss MLPPolicyPG.update computes is NOT the negative
mean over batch examples of (total log-probability of the taken
action) × (that example's advantage).  At the failing input (discrete
policy above, obs [[1],[1]], actions [0,1], advantages [1,0]) the
(N,)-shaped log-prob tensor broadcasts against the (N,1) advantage
column to an N×N product, and update reports Actor Loss 1/4, while the
claim's per-example formula (specActorLoss) gives 1/2. -/
theorem C1_actor_loss_not_per_example :
    MLPPolicy.init 2 1 true 0 0 1 wInc bZero = .ok polC1
    ∧ (MLPPolicyPG.update testModel polC1 [[1], [1]] (.disc [0, 1]) [1, 0]).map
        (fun r => r.2) = .ok [("Actor Loss", 1/4)]
    ∧ specActorLoss testModel polC1.params [[1], [1]] (.disc [0, 1]) [1, 0] = .ok (1/2)
    ∧ (1/4 : ℚ) ≠ 1/2 := by
  exact ⟨by decide, by decide, by decide, by norm_num⟩

/-- Claim C2: the loss ValueCritic.update computes is NOT the mean of
one squared-error term per observation.  At the failing input (critic
above, obs [[1],[2]], 1-D targets [1,2]) the (N,1) prediction matrix
broadcasts against the (N,)-target to an N×N difference matrix, and
update reports Baseline Loss 1/2, while the per-example formula
(specBaselineLoss) gives 0. -/
theorem C2_baseline_loss_not_per_example :
    ValueCritic.init 1 0 0 1 wInc bZero = .ok criticC2
    ∧ (ValueCritic.update testModel criticC2 [[1], [2]] [1, 2]).map (fun r => r.2)
        = .ok [("Baseline Loss", 1/2)]
    ∧ specBaselineLoss testModel criticC2.network [[1], [2]] [1, 2] = .ok 0
    ∧ (1/2 : ℚ) ≠ 0 := by
  exact ⟨by decide, by decide, by decide, by norm_num⟩

/-- Claim C7: forward is deterministic absent explicit sampling: the
distribution parameters and value estimates are functions of the
stored network parameters alone, so two calls with unchanged
parameters (even across different optimizer states) return identical
results. -/
theorem C7_forward_deterministic (M : NumModel) (p1 p2 : MLPPolicy)
    (c1 c2 : ValueCritic) (obsP obsC : MatA ℚ) (hp : p1.params = p2.params)
    (hc : c1.network = c2.network) :
    MLPPolicy.forward M p1 obsP = MLPPolicy.forward M p2 obsP
    ∧ ValueCritic.forward M c1 obsC = ValueCritic.forward M c2 obsC := by
  constructor
  · simp only [MLPPolicy.forward, hp]
  · simp only [ValueCritic.forward, hc]

/-- Witness for C7 at a concrete input: two copies of the C1 policy
with different optimizer step counters, and two copies of the C2
critic likewise. -/
theorem C7_forward_deterministic_witness :
    MLPPolicy.forward testModel polC1 [[1], [1]]
      = MLPPolicy.forward testModel { polC1 with opt := ⟨5, [], [], [], []⟩ } [[1], [1]]
    ∧ ValueCritic.forward testModel criticC2 [[1], [2]]
      = ValueCritic.forward testModel { criticC2 with opt := ⟨7, [], [], [], []⟩ } [[1], [2]] :=
  C7_forward_deterministic testModel polC1 { polC1 with opt := ⟨5, [], [], [], []⟩ }
    criticC2 { criticC2 with opt := ⟨7, [], [], [], []⟩ } [[1], [1]] [[1], [2]] rfl rfl

/-- Claim C8: get_action, in state-passing form, returns the policy
(parameters and optimizer state) unchanged and produces only a plain
numeric action; it runs on the plain value pipeline (torch.no_grad),
so no differentiation graph is built. -/
theorem C8_get_action_frame (M : NumModel) (pol : MLPPolicy) (obs : List ℚ) (u : ℚ)
    (z : List ℚ) :
    (getActionCall M pol obs u z).1 = pol
    ∧ (getActionCall M pol obs u z).2 = MLPPolicy.get_action M pol obs u z :=
  ⟨rfl, rfl⟩

/-- Claim C10: the base-class MLPPolicy.update always raises
NotImplementedError; no parameter or optimizer state is produced or
mutated (the error return carries no new state).  The working update
is MLPPolicyPG.update. -/
theorem C10_base_update_raises (pol : MLPPolicy) (obs : MatA ℚ) (acts : ActIn)
    (adv : List ℚ) :
    MLPPolicy.update pol obs acts adv = Except.error Err.notImplemented := rfl

def isOkE (e : Except ε α) : Bool :=
  match e with
  | .ok _ => true
  | .error _ => false

/-- Extract the parameter state an update returned, with a default for
the error case. -/
def okPolicyParams (e : Except Err (MLPPolicy × List (String × ℚ)))
    (d : MLPPolicyParams) : MLPPolicyParams :=
  match e with
  | .ok p => p.1.params
  | .error _ => d

theorem optMapList_length {f : α → Option β} :
    ∀ {l : List α} {l2 : List β}, optMapList f l = some l2 → l2.length = l.length := by
  intro l
  induction l with
  | nil => intro l2 h; simp [optMapList] at h; simp [← h]
  | cons x xs ih =>
    intro l2 h
    simp only [optMapList, Option.bind_eq_bind] at h
    cases hx : f x with
    | none => rw [hx] at h; simp at h
    | some y =>
      rw [hx] at h
      cases hxs : optMapList f xs with
      | none => rw [hxs] at h; simp at h
      | some ys =>
        rw [hxs] at h
        simp only [Option.some_bind] at h
        cases h
        simp [List.length_cons, ih hxs]

/-- The mismatched-batch update that claim C3 says must fail: three
observations against two advantages, on a discrete policy. -/
def c3res : Except Err (MLPPolicy × List (String × ℚ)) :=
  MLPPolicyPG.update testModel polC1 [[1], [1], [1]] (.disc [0, 1, 0]) [1, 0]

/-- The mismatched-target critic update that claim C3 says must fail:
two observations against three targets. -/
def c3resCritic : Except Err (ValueCritic × List (String × ℚ)) :=
  ValueCritic.update testModel criticC2 [[1], [2]] [1, 2, 3]

/-- Extract the network an update returned, with a default for the
error case. -/
def okCriticNet (e : Except Err (ValueCritic × List (String × ℚ))) (d : MLPq) :
    MLPq :=
  match e with
  | .ok p => p.1.network
  | .error _ => d

/-- Claim C3 counterexample, both components.  Policy: a batch of 3
observations (and 3 actions) against 2 advantages does NOT fail fast —
the (3,)-shaped log-prob tensor and the (2,1) advantage column are
broadcast-compatible (to shape (2,3)), the update returns normally and
parameters are mutated.  Critic: 2 observations against 3 targets do
NOT fail fast either — the (2,1) predictions and the (3,)-target batch
broadcast to (2,3), the update returns normally and parameters are
mutated. -/
theorem C3_silent_broadcast_counterexample :
    (isOkE c3res = true ∧ okPolicyParams c3res polC1.params ≠ polC1.params)
    ∧ (isOkE c3resCritic = true
       ∧ okCriticNet c3resCritic criticC2.network ≠ criticC2.network) := by
  exact ⟨⟨by decide, by decide⟩, ⟨by decide, by decide⟩⟩

theorem bdim_none {a b : ℕ} (hab : a ≠ b) (ha : a ≠ 1) (hb : b ≠ 1) :
    bdim a b = none := by
  simp [bdim, hab, ha, hb]

/-- On a discrete policy, a batch-count mismatch between observations
and actions (both at least 2) makes the update fail with a shape
error before any parameter step. -/
theorem discMismatchRaises (M : NumModel) (pol : MLPPolicy) (obs : MatA ℚ)
    (a : List ℕ) (adv : List ℚ) (net : MLPq)
    (hd : pol.params.discrete = true) (hnet : pol.params.logits_net = some net)
    (hlen : a.length ≠ obs.length) (ha : 2 ≤ a.length) (hb : 2 ≤ obs.length) :
    MLPPolicyPG.update M pol obs (.disc a) adv = .error Err.shape := by
  have hloss : pgLossGen qOps M pol.params.logits_net pol.params.mean_net
      pol.params.logstd pol.params.discrete obs (.disc a) adv = .error Err.shape := by
    rw [hd, hnet]
    cases h2 : mlpApplyBatch qOps M net (obs.map (List.map qOps.cst)) with
    | none =>
      simp only [pgLossGen, forwardNets, if_true, h2]
      rfl
    | some probs =>
      have hplen : probs.length = obs.length := by
        have := optMapList_length h2
        simpa [mlpApplyBatch] using this
      have hbd : bdim a.length probs.length = none := by
        refine bdim_none (by rw [hplen]; exact hlen) (by omega) (by rw [hplen]; omega)
      simp only [pgLossGen, forwardNets, if_true, h2, bind, Except.bind]
      simp only [catLogProb, hbd, Option.bind_eq_bind, Option.none_bind, Option.elim]
  unfold MLPPolicyPG.update
  rw [hloss]
  rfl

theorem linearDims_nonneg {input output n size : ℤ} (hi : 0 ≤ input) (ho : 0 ≤ output)
    (hs : 0 ≤ size) :
    ∀ d ∈ linearDims input output n size, 0 ≤ d.1 ∧ 0 ≤ d.2 := by
  intro d hd
  unfold linearDims at hd
  by_cases hn : n ≤ 0
  · simp only [if_pos hn, List.mem_singleton] at hd
    subst hd; exact ⟨hi, ho⟩
  · simp only [if_neg hn, List.mem_cons] at hd
    rcases hd with h | h
    · subst h; exact ⟨hi, hs⟩
    · rcases List.mem_append.mp h with h2 | h2
      · have h3 := (List.mem_replicate.mp h2).2
        subst h3; exact ⟨hs, hs⟩
      · have h3 : d = (size, output) := by simpa using h2
        subst h3; exact ⟨hs, ho⟩

theorem build_mlp_ok (input output n size : ℤ) (wf : ℕ → ℕ → ℕ → ℚ)
    (bf : ℕ → ℕ → ℚ) (hi : 0 ≤ input) (ho : 0 ≤ output) (hs : 0 ≤ size) :
    isOkE (build_mlp input output n size wf bf) = true := by
  unfold build_mlp
  have hall : ((linearDims input output n size).all
      fun d => decide (0 ≤ d.1) && decide (0 ≤ d.2)) = true := by
    rw [List.all_eq_true]
    intro d hd
    have := linearDims_nonneg hi ho hs d hd
    simp [this.1, this.2]
  simp [hall, isOkE]

theorem build_mlp_neg (input output n size : ℤ) (wf : ℕ → ℕ → ℕ → ℚ)
    (bf : ℕ → ℕ → ℚ) (h : input < 0 ∨ output < 0) :
    build_mlp input output n size wf bf = .error .backend := by
  unfold build_mlp
  have hbad : ∃ d ∈ linearDims input output n size,
      ¬ (0 ≤ d.1 ∧ 0 ≤ d.2) := by
    unfold linearDims
    by_cases hn : n ≤ 0
    · exact ⟨(input, output), by simp [if_pos hn], by rcases h with h | h <;> omega⟩
    · rcases h with h | h
      · exact ⟨(input, size), by simp [if_neg hn], by simp; omega⟩
      · refine ⟨(size, output), ?_, by simp; intro; omega⟩
        simp [if_neg hn, List.mem_cons, List.mem_append, List.mem_singleton]
  have hfalse : ((linearDims input output n size).all
      fun d => decide (0 ≤ d.1) && decide (0 ≤ d.2)) = false := by
    rcases hbad with ⟨d, hmem, hviol⟩
    cases hb : ((linearDims input output n size).all
        fun d => decide (0 ≤ d.1) && decide (0 ≤ d.2)) with
    | false => rfl
    | true =>
      exfalso
      have := List.all_eq_true.mp hb d hmem
      simp at this
      exact hviol ⟨this.1, this.2⟩
  simp [hfalse]

/-- Claim C9, amended: construction performs no dimension validation
of its own.  A negative dimension fails, but only with the backend's
tensor-creation error; dimensions equal to 0 (which the claim says
must be rejected) construct successfully, as does any nonnegative
combination. -/
theorem C9_no_dimension_validation :
    (∀ (ac ob : ℤ) (disc : Bool) (n sz : ℤ) (lr : ℚ) (wf : ℕ → ℕ → ℕ → ℚ)
      (bf : ℕ → ℕ → ℚ), ac < 0 ∨ ob < 0 →
      MLPPolicy.init ac ob disc n sz lr wf bf = .error .backend)
    ∧ (∀ (ac ob : ℤ) (disc : Bool) (n sz : ℤ) (lr : ℚ) (wf : ℕ → ℕ → ℕ → ℚ)
        (bf : ℕ → ℕ → ℚ), 0 ≤ ac → 0 ≤ ob → 0 ≤ sz →
        isOkE (MLPPolicy.init ac ob disc n sz lr wf bf) = true)
    ∧ (∀ (ob n sz : ℤ) (lr : ℚ) (wf : ℕ → ℕ → ℕ → ℚ) (bf : ℕ → ℕ → ℚ),
        0 ≤ ob → 0 ≤ sz → isOkE (ValueCritic.init ob n sz lr wf bf) = true) := by
  refine ⟨?_, ?_, ?_⟩
  · intro ac ob disc n sz lr wf bf h
    have hb : build_mlp ob ac n sz wf bf = .error .backend :=
      build_mlp_neg ob ac n sz wf bf h.symm
    cases disc <;> simp [MLPPolicy.init, hb, bind, Except.bind]
  · intro ac ob disc n sz lr wf bf hac hob hsz
    have hb := build_mlp_ok ob ac n sz wf bf hob hac hsz
    cases hnet : build_mlp ob ac n sz wf bf with
    | error e => rw [hnet] at hb; simp [isOkE] at hb
    | ok net =>
      cases disc with
      | true => simp [MLPPolicy.init, hnet, bind, Except.bind, isOkE]
      | false =>
        simp [MLPPolicy.init, hnet, bind, Except.bind, isOkE, if_neg (not_lt.mpr hac)]
  · intro ob n sz lr wf bf hob hsz
    have hb := build_mlp_ok ob 1 n sz wf bf hob (by omega) hsz
    cases hnet : build_mlp ob 1 n sz wf bf with
    | error e => rw [hnet] at hb; simp [isOkE] at hb
    | ok net => simp [ValueCritic.init, hnet, isOkE, Except.map]

/-- Claim C9 counterexample: ac_dim = 0 (which is ≤ 0, so the claim
says construction must fail) constructs a policy without any error. -/
theorem C9_zero_dim_constructs :
    isOkE (MLPPolicy.init 0 1 true 1 1 1 wZero bZero) = true := by decide

/-- Witness for the amended C9 at concrete inputs. -/
theorem C9_no_dimension_validation_witness :
    MLPPolicy.init (-1) 1 true 1 1 1 wZero bZero = .error .backend
    ∧ isOkE (MLPPolicy.init 2 0 false 1 1 1 wZero bZero) = true
    ∧ isOkE (ValueCritic.init 0 1 1 1 wZero bZero) = true :=
  ⟨C9_no_dimension_validation.1 (-1) 1 true 1 1 1 wZero bZero (Or.inl (by decide)),
   C9_no_dimension_validation.2.1 2 0 false 1 1 1 wZero bZero (by decide) (by decide)
     (by decide),
   C9_no_dimension_validation.2.2 0 1 1 1 wZero bZero (by decide) (by decide)⟩

theorem getD_cases {l : List α} {d : α} (n : ℕ) :
    l.getD n d = d ∨ ∃ x ∈ l, l.getD n d = x := by
  induction l generalizing n with
  | nil => left; simp [List.getD_nil]
  | cons x xs ih =>
    cases n with
    | zero => right; exact ⟨x, by simp, by simp [List.getD_cons_zero]⟩
    | succ m =>
      rcases ih (n := m) with h | ⟨y, hy, he⟩
      · left; simpa [List.getD_cons_succ] using h
      · right; exact ⟨y, by simp [hy], by simpa [List.getD_cons_succ] using he⟩

theorem DQ_mul_ofQ_zero (x : DQ) : DQ.mul x (DQ.ofQ 0) = DQ.ofQ 0 := by
  simp [DQ.mul, DQ.ofQ]

theorem DQ_add_ofQ_zero (x : DQ) : DQ.add x (DQ.ofQ 0) = x := by
  cases x; simp [DQ.add, DQ.ofQ]

theorem getD_getD_ofQ_zero (advD : List DQ) (hz : ∀ a ∈ advD, a = DQ.ofQ 0)
    (r c : ℕ) :
    ((advD.map fun a => [a]).getD r []).getD c (DQ.ofQ 0) = DQ.ofQ 0 := by
  rcases getD_cases (l := advD.map fun a => [a]) (d := []) r with h | ⟨row, hrow, h⟩
  · rw [h]; simp [List.getD_nil]
  · rw [h]
    rcases List.mem_map.mp hrow with ⟨a, ha, hae⟩
    subst hae
    have hza := hz a ha
    cases c with
    | zero => simpa [List.getD_cons_zero] using hza
    | succ m => simp [List.getD_cons_succ, List.getD_nil]

theorem bget_unsqueeze_zero {advD : List DQ} (hz : ∀ a ∈ advD, a = DQ.ofQ 0)
    (i j : ℕ) :
    bget dOps (advD.map fun a => [a]) i j = DQ.ofQ 0 := by
  unfold bget
  exact getD_getD_ofQ_zero advD hz _ _

theorem foldl_add_ofQ_zero : ∀ (l : List DQ), (∀ x ∈ l, x = DQ.ofQ 0) →
    ∀ acc, l.foldl DQ.add acc = acc := by
  intro l
  induction l with
  | nil => intro _ acc; rfl
  | cons x xs ih =>
    intro h acc
    have hx := h x (by simp)
    simp only [List.foldl_cons, hx, DQ_add_ofQ_zero]
    exact ih (fun y hy => h y (by simp [hy])) acc

theorem matSum_ofQ_zero (m : MatA DQ) (h : ∀ row ∈ m, ∀ x ∈ row, x = DQ.ofQ 0) :
    matSum dOps m = DQ.ofQ 0 := by
  unfold matSum
  have : ∀ (rows : List (List DQ)), (∀ row ∈ rows, ∀ x ∈ row, x = DQ.ofQ 0) →
      ∀ acc, rows.foldl (fun acc row => row.foldl dOps.add acc) acc = acc := by
    intro rows
    induction rows with
    | nil => intro _ acc; rfl
    | cons r rs ih =>
      intro hh acc
      simp only [List.foldl_cons]
      rw [show dOps.add = DQ.add from rfl] at *
      rw [foldl_add_ofQ_zero r (hh r (by simp)) acc]
      exact ih (fun row hr => hh row (by simp [hr])) acc
  rw [this m h (dOps.cst 0)]
  rfl

theorem DQ_divN_zero (n : ℕ) : DQ.divN (DQ.ofQ 0) n = DQ.ofQ 0 := by
  simp [DQ.divN, DQ.ofQ]

theorem DQ_neg_zero : DQ.neg (DQ.ofQ 0) = DQ.ofQ 0 := by
  simp [DQ.neg, DQ.ofQ]

/-- With an all-zero advantage column the broadcast product is the
zero matrix, so the policy loss and its whole derivative are zero. -/
theorem pgLossRaw_zero_adv {lp : TensorA DQ} {advD : List DQ} {x : DQ}
    (hz : ∀ a ∈ advD, a = DQ.ofQ 0)
    (h : pgLossRaw dOps lp advD = some x) : x = DQ.ofQ 0 := by
  unfold pgLossRaw at h
  simp only [Option.bind_eq_bind] at h
  cases hb : broadcastOp dOps dOps.mul lp.toMat (advD.map fun a => [a]) with
  | none => rw [hb] at h; simp at h
  | some prod =>
    rw [hb] at h
    simp only [Option.some_bind, Option.some.injEq] at h
    unfold broadcastOp at hb
    simp only [Option.bind_eq_bind] at hb
    cases hr : bdim (matRows lp.toMat) (matRows (advD.map fun a => [a])) with
    | none => rw [hr] at hb; simp at hb
    | some r =>
      rw [hr] at hb
      cases hc : bdim (matCols lp.toMat) (matCols (advD.map fun a => [a])) with
      | none => rw [hc] at hb; simp at hb
      | some c =>
        rw [hc] at hb
        simp only [Option.some_bind, Option.some.injEq] at hb
        have hentries : ∀ row ∈ prod, ∀ y ∈ row, y = DQ.ofQ 0 := by
          intro row hrow y hy
          rw [← hb] at hrow
          rcases List.mem_map.mp hrow with ⟨i, _, hie⟩
          subst hie
          rcases List.mem_map.mp hy with ⟨j, _, hje⟩
          subst hje
          rw [show dOps.mul = DQ.mul from rfl, bget_unsqueeze_zero hz i j]
          exact DQ_mul_ofQ_zero _
        rw [← h]
        unfold matMean
        rw [matSum_ofQ_zero prod hentries]
        rw [show dOps.divN = DQ.divN from rfl, DQ_divN_zero,
          show dOps.neg = DQ.neg from rfl, DQ_neg_zero]

/-- Lift of the previous fact through the whole loss pipeline: if the
advantages are all zero and the dual-number loss computes, it is the
zero dual (value 0, derivative 0). -/
theorem pgLossGen_zero_adv {M : NumModel} {lnet mnet : Option (MLPA DQ)}
    {lstd : Option (List DQ)} {disc : Bool} {obs : MatA ℚ} {acts : ActIn}
    {adv : List ℚ} {x : DQ} (hz : ∀ a ∈ adv, a = (0 : ℚ))
    (h : pgLossGen dOps M lnet mnet lstd disc obs acts adv = .ok x) :
    x = DQ.ofQ 0 := by
  have hzd : ∀ a ∈ adv.map dOps.cst, a = DQ.ofQ 0 := by
    intro a ha
    rcases List.mem_map.mp ha with ⟨q, hq, hqe⟩
    rw [← hqe, show dOps.cst = DQ.ofQ from rfl, hz q hq]
  unfold pgLossGen at h
  cases hf : forwardNets dOps M disc lnet mnet lstd (obs.map (List.map dOps.cst)) with
  | error e => rw [hf] at h; simp [bind, Except.bind] at h
  | ok dist =>
    rw [hf] at h
    cases dist with
    | categorical lg =>
      cases acts with
      | disc a =>
        simp only [bind, Except.bind] at h
        cases hcat : catLogProb dOps M lg a with
        | none => rw [hcat] at h; simp [Option.elim] at h
        | some lp =>
          rw [hcat] at h
          simp only [Option.elim] at h
          cases hraw : pgLossRaw dOps lp (adv.map dOps.cst) with
          | none => rw [hraw] at h; simp [Option.elim] at h
          | some v =>
            rw [hraw] at h
            simp only [Option.elim, Except.ok.injEq] at h
            rw [← h]
            exact pgLossRaw_zero_adv hzd hraw
      | cont a => simp [bind, Except.bind] at h
    | normal mu sd =>
      cases acts with
      | disc a => simp [bind, Except.bind] at h
      | cont a =>
        simp only [bind, Except.bind] at h
        cases hcat : normalLogProb dOps M mu sd (a.map (List.map dOps.cst)) with
        | none => rw [hcat] at h; simp [Option.elim] at h
        | some lp =>
          rw [hcat] at h
          simp only [Option.elim] at h
          cases hraw : pgLossRaw dOps lp (adv.map dOps.cst) with
          | none => rw [hraw] at h; simp [Option.elim] at h
          | some v =>
            rw [hraw] at h
            simp only [Option.elim, Except.ok.injEq] at h
            rw [← h]
            exact pgLossRaw_zero_adv hzd hraw

theorem mapIdxFrom_congr {f g : ℕ → α → β} (h : ∀ i x, f i x = g i x) :
    ∀ (n : ℕ) (l : List α), mapIdxFrom f n l = mapIdxFrom g n l := by
  intro n l
  induction l generalizing n with
  | nil => rfl
  | cons x xs ih => simp [mapIdxFrom, h, ih]

theorem mapIdxFrom_const {f : ℕ → α → β} {g : α → β} (h : ∀ i x, f i x = g x) :
    ∀ (n : ℕ) (l : List α), mapIdxFrom f n l = l.map g := by
  intro n l
  induction l generalizing n with
  | nil => rfl
  | cons x xs ih => simp [mapIdxFrom, h, ih]

theorem mapIdxFrom_id {f : ℕ → α → α} (h : ∀ i x, f i x = x) :
    ∀ (n : ℕ) (l : List α), mapIdxFrom f n l = l := by
  intro n l
  induction l generalizing n with
  | nil => rfl
  | cons x xs ih => simp [mapIdxFrom, h, ih]

theorem gradNetOf_zero {f : PPos → ℚ} (h : ∀ p, f p = 0) (net : MLPq) :
    gradNetOf f net = zerosMLP net := by
  unfold gradNetOf zerosMLP mapIdxQ
  refine mapIdxFrom_const (fun li l => ?_) 0 net
  unfold zerosLayer zerosMat zerosVec
  congr 1
  · refine mapIdxFrom_const (fun i r => ?_) 0 l.weight
    exact mapIdxFrom_const (fun j x => h _) 0 r
  · exact mapIdxFrom_const (fun i x => h _) 0 l.bias

theorem gradVecOf_zero {f : PPos → ℚ} (h : ∀ p, f p = 0) (v : List ℚ) :
    gradVecOf f v = zerosVec v := by
  unfold gradVecOf zerosVec mapIdxQ
  exact mapIdxFrom_const (fun i x => h _) 0 v

theorem zerosVec_lookV (v : List ℚ) (i : ℕ) : lookV (zerosVec v) i = 0 := by
  unfold lookV
  rcases getD_cases (l := zerosVec v) (d := (0 : ℚ)) i with h | ⟨x, hx, h⟩
  · exact h
  · rw [h]
    rcases List.mem_map.mp hx with ⟨_, _, he⟩
    exact he.symm

theorem zerosMat_lookM (m : MatA ℚ) (i j : ℕ) : lookM (zerosMat m) i j = 0 := by
  unfold lookM
  rcases getD_cases (l := zerosMat m) (d := ([] : List ℚ)) i with h | ⟨row, hrow, h⟩
  · rw [h]; simp [List.getD_nil]
  · rw [h]
    rcases List.mem_map.mp hrow with ⟨r, _, he⟩
    subst he
    exact zerosVec_lookV r j

theorem zerosMLP_lookW (net : MLPq) (li i j : ℕ) :
    lookM (lookLayer (zerosMLP net) li).weight i j = 0 := by
  unfold lookLayer
  rcases getD_cases (l := zerosMLP net) (d := (⟨[], []⟩ : Layer)) li with h | ⟨l, hl, h⟩
  · rw [h]; simp [lookM, List.getD_nil]
  · rw [h]
    rcases List.mem_map.mp hl with ⟨l0, _, he⟩
    subst he
    exact zerosMat_lookM l0.weight i j

theorem zerosMLP_lookB (net : MLPq) (li i : ℕ) :
    lookV (lookLayer (zerosMLP net) li).bias i = 0 := by
  unfold lookLayer
  rcases getD_cases (l := zerosMLP net) (d := (⟨[], []⟩ : Layer)) li with h | ⟨l, hl, h⟩
  · rw [h]; simp [lookV, List.getD_nil]
  · rw [h]
    rcases List.mem_map.mp hl with ⟨l0, _, he⟩
    subst he
    exact zerosVec_lookV l0.bias i

/-- An Adam step on one parameter with zero gradient and zero moments
leaves the parameter exactly unchanged (0/(sqrt v + eps) = 0). -/
theorem adamPoint_zero (lr : ℚ) (s : ℚ → ℚ) (t : ℕ) (p : ℚ) :
    (adamPoint lr s t p 0 0 0).1 = p := by
  unfold adamPoint
  simp

theorem adamVecStep_zeros (lr : ℚ) (s : ℚ → ℚ) (t : ℕ) (p : List ℚ)
    (a b c : List ℚ) :
    adamVecStep selP lr s t p (zerosVec a) (zerosVec b) (zerosVec c) = p := by
  unfold adamVecStep mapIdxQ
  refine mapIdxFrom_id (fun i x => ?_) 0 p
  rw [zerosVec_lookV, zerosVec_lookV, zerosVec_lookV]
  exact adamPoint_zero lr s t x

theorem adamNetStep_zeros (lr : ℚ) (s : ℚ → ℚ) (t : ℕ) (p : MLPq)
    (a b c : MLPq) :
    adamNetStep selP lr s t p (zerosMLP a) (zerosMLP b) (zerosMLP c) = p := by
  unfold adamNetStep mapIdxQ
  refine mapIdxFrom_id (fun li l => ?_) 0 p
  have hw : mapIdxFrom (fun i r => mapIdxFrom (fun j x =>
      selP (adamPoint lr s t x (lookM (lookLayer (zerosMLP a) li).weight i j)
        (lookM (lookLayer (zerosMLP b) li).weight i j)
        (lookM (lookLayer (zerosMLP c) li).weight i j))) 0 r) 0 l.weight
      = l.weight := by
    refine mapIdxFrom_id (fun i r => ?_) 0 l.weight
    refine mapIdxFrom_id (fun j x => ?_) 0 r
    rw [zerosMLP_lookW, zerosMLP_lookW, zerosMLP_lookW]
    exact adamPoint_zero lr s t x
  have hb : mapIdxFrom (fun i x =>
      selP (adamPoint lr s t x (lookV (lookLayer (zerosMLP a) li).bias i)
        (lookV (lookLayer (zerosMLP b) li).bias i)
        (lookV (lookLayer (zerosMLP c) li).bias i))) 0 l.bias = l.bias := by
    refine mapIdxFrom_id (fun i x => ?_) 0 l.bias
    rw [zerosMLP_lookB, zerosMLP_lookB, zerosMLP_lookB]
    exact adamPoint_zero lr s t x
  cases l
  simp only at hw hb
  simp [mapIdxQ, hw, hb]

theorem forwardNets_ok_nets {O : NumOps α} {M : NumModel} {disc : Bool}
    {lnet mnet : Option (MLPA α)} {lstd : Option (List α)} {obs : MatA α}
    {dist : DistA α}
    (h : forwardNets O M disc lnet mnet lstd obs = .ok dist) :
    (disc = true → ∃ n, lnet = some n)
    ∧ (disc = false → (∃ n, mnet = some n) ∧ ∃ s, lstd = some s) := by
  unfold forwardNets at h
  constructor
  · intro hd; subst hd
    cases lnet with
    | some n => exact ⟨n, rfl⟩
    | none => simp at h
  · intro hd; subst hd
    cases mnet with
    | none => cases lstd <;> simp at h
    | some n =>
      cases lstd with
      | none => simp at h
      | some s => exact ⟨⟨n, rfl⟩, ⟨s, rfl⟩⟩

theorem pgLossGen_ok_nets {O : NumOps α} {M : NumModel}
    {lnet mnet : Option (MLPA α)} {lstd : Option (List α)} {disc : Bool}
    {obs : MatA ℚ} {acts : ActIn} {adv : List ℚ} {x : α}
    (h : pgLossGen O M lnet mnet lstd disc obs acts adv = .ok x) :
    (disc = true → ∃ n, lnet = some n)
    ∧ (disc = false → (∃ n, mnet = some n) ∧ ∃ s, lstd = some s) := by
  unfold pgLossGen at h
  cases hf : forwardNets O M disc lnet mnet lstd (obs.map (List.map O.cst)) with
  | error e => rw [hf] at h; simp [bind, Except.bind] at h
  | ok dist => exact forwardNets_ok_nets hf

/-- Claim C5, amended: with an all-zero advantage batch the update's
loss gradient is zero on every owned parameter (net weights and
biases, and logstd in continuous mode); and if the Adam moment
estimates are still zero (i.e. no earlier update has built momentum —
e.g. a freshly constructed policy) the parameters come out exactly
unchanged.  With nonzero momentum from an earlier update the
parameters do move (see the counterexample), because Adam's step
-lr·m̂/(√v̂+ε) is nonzero even at zero gradient. -/
theorem C5_zero_advantage (M : NumModel) (pol : MLPPolicy) (obs : MatA ℚ)
    (acts : ActIn) (adv : List ℚ) (pol2 : MLPPolicy) (diag : List (String × ℚ))
    (hz : ∀ a ∈ adv, a = (0 : ℚ))
    (hmn : pol.opt.mNet = zerosMLP (activeNet pol.params))
    (hvn : pol.opt.vNet = zerosMLP (activeNet pol.params))
    (hms : pol.opt.mStd = zerosVec (pol.params.logstd.getD []))
    (hvs : pol.opt.vStd = zerosVec (pol.params.logstd.getD []))
    (hok : MLPPolicyPG.update M pol obs acts adv = .ok (pol2, diag)) :
    pgGradNet M pol.params obs acts adv = zerosMLP (activeNet pol.params)
    ∧ pgGradStd M pol.params obs acts adv = zerosVec (pol.params.logstd.getD [])
    ∧ pol2.params = pol.params := by
  have hfzero : ∀ p : PPos, gradOfExcept (pgLossD M pol.params obs acts adv p) = 0 := by
    intro p
    unfold pgLossD
    cases hq : pgLossGen dOps M (seedNetOpt p pol.params.logits_net)
        (seedNetOpt p pol.params.mean_net) (seedStdOpt p pol.params.logstd)
        pol.params.discrete obs acts adv with
    | error e => simp [gradOfExcept]
    | ok d =>
      have hd := pgLossGen_zero_adv hz hq
      simp [gradOfExcept, hd, DQ.ofQ]
  have hgn : pgGradNet M pol.params obs acts adv = zerosMLP (activeNet pol.params) := by
    unfold pgGradNet
    exact gradNetOf_zero (fun p => hfzero _) _
  have hgs : pgGradStd M pol.params obs acts adv
      = zerosVec (pol.params.logstd.getD []) := by
    unfold pgGradStd
    exact gradVecOf_zero (fun p => hfzero _) _
  refine ⟨hgn, hgs, ?_⟩
  unfold MLPPolicyPG.update at hok
  cases hq : pgLossGen qOps M pol.params.logits_net pol.params.mean_net
      pol.params.logstd pol.params.discrete obs acts adv with
  | error e => rw [hq] at hok; simp [bind, Except.bind] at hok
  | ok loss =>
    rw [hq] at hok
    simp only [bind, Except.bind, Except.ok.injEq, Prod.mk.injEq] at hok
    obtain ⟨h1, h2⟩ := hok
    rw [← h1]
    obtain ⟨hnets1, hnets2⟩ := pgLossGen_ok_nets hq
    have hnet : adamNetStep selP pol.lr M.sqrt (pol.opt.t + 1) (activeNet pol.params)
        (pgGradNet M pol.params obs acts adv) pol.opt.mNet pol.opt.vNet
        = activeNet pol.params := by
      rw [hgn, hmn, hvn]
      exact adamNetStep_zeros _ _ _ _ _ _ _
    have hstp : adamVecStep selP pol.lr M.sqrt (pol.opt.t + 1)
        (pol.params.logstd.getD []) (pgGradStd M pol.params obs acts adv)
        pol.opt.mStd pol.opt.vStd = pol.params.logstd.getD [] := by
      rw [hgs, hms, hvs]
      exact adamVecStep_zeros _ _ _ _ _ _ _
    by_cases hdisc : pol.params.discrete = true
    · obtain ⟨n, hn⟩ := hnets1 hdisc
      have hact : activeNet pol.params = n := by
        unfold activeNet; rw [hdisc, hn]; rfl
      rw [if_pos hdisc, hnet, hact, ← hn]
    · have hdisc2 : pol.params.discrete = false := by
        cases hb : pol.params.discrete
        · rfl
        · exact absurd hb hdisc
      obtain ⟨⟨n, hn⟩, s, hs⟩ := hnets2 hdisc2
      have hact : activeNet pol.params = n := by
        unfold activeNet; rw [hdisc2, hn]; rfl
      have hstd : pol.params.logstd.getD [] = s := by rw [hs]; rfl
      rw [if_neg hdisc, hnet, hstp, hact, hstd, ← hn, ← hs]

/-- A freshly constructed discrete policy (ac_dim 1, ob_dim 1, zero
weights, zero Adam moments) used for the C5 witness and, after one
momentum-building update, for the C5 counterexample. -/
def polC5 : MLPPolicy :=
  { params := { ac_dim := 1, ob_dim := 1, logits_net := some [⟨[[0]], [0]⟩],
                mean_net := none, logstd := none, discrete := true },
    opt := ⟨0, [⟨[[0]], [0]⟩], [⟨[[0]], [0]⟩], [], []⟩, lr := 1 }

/-- The state after the zero-advantage update on the fresh policy:
only the step counter moved. -/
def polC5after : MLPPolicy :=
  { polC5 with opt := ⟨1, [⟨[[0]], [0]⟩], [⟨[[0]], [0]⟩], [], []⟩ }

set_option maxHeartbeats 2000000 in
/-- Witness for the amended C5 at a concrete input. -/
theorem C5_zero_advantage_witness :
    pgGradNet testModel polC5.params [[0]] (.disc [0]) [0]
      = zerosMLP (activeNet polC5.params)
    ∧ pgGradStd testModel polC5.params [[0]] (.disc [0]) [0]
      = zerosVec (polC5.params.logstd.getD [])
    ∧ polC5after.params = polC5.params :=
  C5_zero_advantage testModel polC5 [[0]] (.disc [0]) [0] polC5after
    [("Actor Loss", 0)] (by decide) (by decide) (by decide) (by decide) (by decide)
    (by decide)

/-- The C5 policy after one update with advantage 1, which leaves
nonzero Adam momentum behind (the first conjunct of the counterexample
checks this state is exactly what that update produces). -/
def polC5mom : MLPPolicy :=
  { params := { ac_dim := 1, ob_dim := 1,
                logits_net := some [⟨[[0]], [100000000/100000001]⟩],
                mean_net := none, logstd := none, discrete := true },
    opt := ⟨1, [⟨[[0]], [-1/10]⟩], [⟨[[0]], [1/1000]⟩], [], []⟩, lr := 1 }

def c5res2 : Except Err (MLPPolicy × List (String × ℚ)) :=
  MLPPolicyPG.update testModel polC5mom [[0]] (.disc [0]) [0]

set_option maxHeartbeats 4000000 in
/-- Claim C5 counterexample: on a policy carrying Adam momentum from
one earlier update (with advantage 1, first conjunct), an update whose
advantages are all zero still changes the parameters (Adam moves by
-lr·m̂/(√v̂+ε) even at zero gradient), refuting the claim as stated
for every policy. -/
theorem C5_momentum_counterexample :
    MLPPolicyPG.update testModel polC5 [[0]] (.disc [0]) [1]
      = .ok (polC5mom, [("Actor Loss", 1)])
    ∧ (∀ a ∈ ([0] : List ℚ), a = 0)
    ∧ isOkE c5res2 = true
    ∧ okPolicyParams c5res2 polC5mom.params ≠ polC5mom.params := by
  exact ⟨by decide, by decide, by decide, by decide⟩

/-- Shape discipline of a built MLP: input width i, output width o,
every layer's bias as long as its weight has rows, consecutive layers
chained. -/
inductive NetShape : MLPq → ℕ → ℕ → Prop where
  | single (l : Layer) (i o : ℕ) :
      l.weight.length = o → (∀ r ∈ l.weight, r.length = i) →
      l.bias.length = o → NetShape [l] i o
  | cons (l : Layer) (rest : MLPq) (i h o : ℕ) :
      l.weight.length = h → (∀ r ∈ l.weight, r.length = i) →
      l.bias.length = h → NetShape rest h o → NetShape (l :: rest) i o

theorem NetShape.ne_nil {net : MLPq} {i o : ℕ} (h : NetShape net i o) : net ≠ [] := by
  cases h <;> simp

theorem mkLayer_shape (inF outF li : ℕ) (wf : ℕ → ℕ → ℕ → ℚ) (bf : ℕ → ℕ → ℚ) :
    (mkLayer inF outF li wf bf).weight.length = outF
    ∧ (∀ r ∈ (mkLayer inF outF li wf bf).weight, r.length = inF)
    ∧ (mkLayer inF outF li wf bf).bias.length = outF := by
  refine ⟨by simp [mkLayer], ?_, by simp [mkLayer]⟩
  intro r hr
  simp only [mkLayer, List.mem_map, List.mem_range] at hr
  rcases hr with ⟨i, _, he⟩
  simp [← he]

theorem netShape_tail (size output : ℤ) (wf : ℕ → ℕ → ℕ → ℚ) (bf : ℕ → ℕ → ℚ) :
    ∀ (k m : ℕ), NetShape (mapIdxFrom
      (fun li d => mkLayer d.1.toNat d.2.toNat li wf bf) m
      (List.replicate k ((size, size) : ℤ × ℤ) ++ [(size, output)]))
      size.toNat output.toNat := by
  intro k
  induction k with
  | zero =>
    intro m
    obtain ⟨h1, h2, h3⟩ := mkLayer_shape size.toNat output.toNat m wf bf
    exact NetShape.single _ _ _ h1 h2 h3
  | succ k ih =>
    intro m
    simp only [List.replicate_succ, List.cons_append, mapIdxFrom]
    obtain ⟨h1, h2, h3⟩ := mkLayer_shape size.toNat size.toNat m wf bf
    exact NetShape.cons _ _ _ _ _ h1 h2 h3 (ih (m + 1))

theorem build_mlp_shape {input output n size : ℤ} {wf : ℕ → ℕ → ℕ → ℚ}
    {bf : ℕ → ℕ → ℚ} {net : MLPq}
    (h : build_mlp input output n size wf bf = .ok net) :
    NetShape net input.toNat output.toNat := by
  unfold build_mlp at h
  by_cases hall : ((linearDims input output n size).all
      fun d => decide (0 ≤ d.1) && decide (0 ≤ d.2)) = true
  · rw [if_pos hall] at h
    have hnet : net = mapIdxQ
        (fun li d => mkLayer d.1.toNat d.2.toNat li wf bf)
        (linearDims input output n size) := by
      exact (Except.ok.inj h).symm
    subst hnet
    unfold linearDims mapIdxQ
    by_cases hn : n ≤ 0
    · rw [if_pos hn]
      obtain ⟨h1, h2, h3⟩ := mkLayer_shape input.toNat output.toNat 0 wf bf
      exact NetShape.single _ _ _ h1 h2 h3
    · rw [if_neg hn]
      simp only [mapIdxFrom]
      obtain ⟨h1, h2, h3⟩ := mkLayer_shape input.toNat size.toNat 0 wf bf
      exact NetShape.cons _ _ _ _ _ h1 h2 h3 (netShape_tail size output wf bf _ 1)
  · rw [if_neg hall] at h
    exact absurd h (by simp)

theorem affineApply_some {O : NumOps α} {l : LayerA α} {x : List α}
    (hw : ∀ r ∈ l.weight, r.length = x.length)
    (hb : l.bias.length = l.weight.length) :
    ∃ y, affineApply O l x = some y ∧ y.length = l.weight.length := by
  unfold affineApply
  have h1 : (l.weight.all fun r => r.length == x.length) = true := by
    rw [List.all_eq_true]
    intro r hr
    simpa using hw r hr
  have h2 : (l.bias.length == l.weight.length) = true := by simpa using hb
  rw [h1, h2]
  refine ⟨_, rfl, ?_⟩
  simp [List.length_zipWith, hb]

theorem mlpApply_shape {O : NumOps ℚ} (M : NumModel) {net : MLPq} {i o : ℕ}
    (hs : NetShape net i o) : ∀ (x : List ℚ), x.length = i →
    ∃ y, mlpApply O M net x = some y ∧ y.length = o := by
  induction hs with
  | single l i o hw hr hb =>
    intro x hx
    obtain ⟨y, hy, hylen⟩ := affineApply_some (l := l) (x := x)
      (fun r hrr => by rw [hr r hrr, hx]) (by rw [hb, hw])
    exact ⟨y, by simpa [mlpApply] using hy, by rw [hylen, hw]⟩
  | cons l rest i hmid o hw hr hb hrest ih =>
    intro x hx
    obtain ⟨y, hy, hylen⟩ := affineApply_some (O := O) (l := l) (x := x)
      (fun r hrr => by rw [hr r hrr, hx]) (by rw [hb, hw])
    cases rest with
    | nil => exact absurd rfl hrest.ne_nil
    | cons l2 rest2 =>
      obtain ⟨y2, hy2, hy2len⟩ := ih (y.map (O.appD M.act M.actD))
        (by rw [List.length_map, hylen, hw])
      refine ⟨y2, ?_, hy2len⟩
      simp [mlpApply, hy, hy2]

theorem catSample_lt (M : NumModel) (logits : List ℚ) (u : ℚ)
    (h : 0 < logits.length) : catSample M logits u < logits.length := by
  unfold catSample
  cases hf : (List.range logits.length).find?
      (fun k => decide (u * (logits.map M.exp).sum
        < ((logits.map M.exp).take (k + 1)).sum)) with
  | some k =>
    have hk := List.mem_range.mp (List.mem_of_find?_eq_some hf)
    simpa [hf] using hk
  | none => simpa [hf] using Nat.sub_lt h Nat.one_pos

/-- Claim C4: for every policy constructed with discrete = true and
ac_dim > 0, and every observation of the right width, get_action
computes logits of length ac_dim and the categorical sampler returns
an integer action index in [0, ac_dim), whatever the uniform draw. -/
theorem C4_discrete_action_range (M : NumModel) (ac ob n sz : ℤ) (lr : ℚ)
    (wf : ℕ → ℕ → ℕ → ℚ) (bf : ℕ → ℕ → ℚ) (pol : MLPPolicy) (obs : List ℚ)
    (u : ℚ) (z : List ℚ)
    (hinit : MLPPolicy.init ac ob true n sz lr wf bf = .ok pol)
    (hac : 0 < ac) (hobs : obs.length = ob.toNat) :
    ∃ a : ℕ, MLPPolicy.get_action M pol obs u z = .ok (.d a) ∧ a < ac.toNat := by
  unfold MLPPolicy.init at hinit
  rw [if_pos rfl] at hinit
  cases hb : build_mlp ob ac n sz wf bf with
  | error e => rw [hb] at hinit; simp [bind, Except.bind] at hinit
  | ok net =>
    rw [hb] at hinit
    simp only [bind, Except.bind, Except.ok.injEq] at hinit
    obtain ⟨y, hy, hylen⟩ := mlpApply_shape (O := qOps) M (build_mlp_shape hb) obs hobs
    have hmb : mlpApplyBatch qOps M net [obs] = some [y] := by
      simp [mlpApplyBatch, optMapList, hy]
    have hfw : forwardNets qOps M pol.params.discrete pol.params.logits_net
        pol.params.mean_net pol.params.logstd [obs] = .ok (.categorical [y]) := by
      rw [← hinit]
      simp [forwardNets, hmb]
    refine ⟨catSample M y u, ?_, ?_⟩
    · unfold MLPPolicy.get_action
      rw [hfw]
      simp [bind, Except.bind]
    · have := catSample_lt M y u (by omega)
      omega

/-- Witness for C4 at a concrete input (the C1 policy, ac_dim 2). -/
theorem C4_discrete_action_range_witness :
    ∃ a : ℕ, MLPPolicy.get_action testModel polC1 [1] (1/3) [] = .ok (.d a)
      ∧ a < (2 : ℤ).toNat :=
  C4_discrete_action_range testModel 2 1 0 0 1 wInc bZero polC1 [1] (1/3) []
    (by decide) (by decide) (by decide)

/-- The shape signature of one Linear layer: row widths of the weight
and the bias length. -/
def layerSig (l : Layer) : List ℕ × ℕ := (l.weight.map List.length, l.bias.length)

def netSig (n : MLPq) : List (List ℕ × ℕ) := n.map layerSig

/-- Everything claim C6 says is fixed at construction: the discrete
flag, the dimensions, which parameter subsets exist, and every
parameter shape. -/
def paramsSig (pp : MLPPolicyParams) :
    Bool × ℤ × ℤ × Option (List (List ℕ × ℕ)) × Option (List (List ℕ × ℕ)) × Option ℕ :=
  (pp.discrete, pp.ac_dim, pp.ob_dim, pp.logits_net.map netSig,
   pp.mean_net.map netSig, pp.logstd.map List.length)

theorem mapIdxFrom_length (f : ℕ → α → β) :
    ∀ (n : ℕ) (l : List α), (mapIdxFrom f n l).length = l.length := by
  intro n l
  induction l generalizing n with
  | nil => rfl
  | cons x xs ih => simp [mapIdxFrom, ih]

theorem map_mapIdxFrom (g : β → γ) (f : ℕ → α → β) (g2 : α → γ)
    (h : ∀ i x, g (f i x) = g2 x) :
    ∀ (n : ℕ) (l : List α), (mapIdxFrom f n l).map g = l.map g2 := by
  intro n l
  induction l generalizing n with
  | nil => rfl
  | cons x xs ih => simp [mapIdxFrom, h, ih]

theorem adamVecStep_length (sel : ℚ × ℚ × ℚ → ℚ) (lr : ℚ) (s : ℚ → ℚ) (t : ℕ)
    (p g m v : List ℚ) : (adamVecStep sel lr s t p g m v).length = p.length := by
  unfold adamVecStep mapIdxQ
  exact mapIdxFrom_length _ _ _

theorem adamNetStep_sig (sel : ℚ × ℚ × ℚ → ℚ) (lr : ℚ) (s : ℚ → ℚ) (t : ℕ)
    (p g m v : MLPq) : netSig (adamNetStep sel lr s t p g m v) = netSig p := by
  unfold adamNetStep netSig mapIdxQ
  refine map_mapIdxFrom layerSig _ layerSig (fun li l => ?_) 0 p
  unfold layerSig
  simp only [Prod.mk.injEq]
  constructor
  · refine map_mapIdxFrom List.length _ List.length (fun i r => ?_) 0 l.weight
    exact mapIdxFrom_length _ _ _
  · exact mapIdxFrom_length _ _ _

/-- Claim C6: construction with discrete = true allocates exactly the
logits net (no mean net, no logstd), construction with discrete =
false allocates exactly the mean net plus logstd (no logits net), and
a successful update changes neither the discrete flag nor which
subsets exist nor any parameter shape.  forward and get_action take
the policy only as input and return no modified policy (they are
read-only; see C7/C8), so update is the only operation that could
change the stored parameters at all. -/
theorem C6_discrete_subset_invariant :
    (∀ (ac ob n sz : ℤ) (lr : ℚ) (wf : ℕ → ℕ → ℕ → ℚ) (bf : ℕ → ℕ → ℚ)
      (pol : MLPPolicy), MLPPolicy.init ac ob true n sz lr wf bf = .ok pol →
      pol.params.discrete = true ∧ pol.params.logits_net.isSome = true
      ∧ pol.params.mean_net = none ∧ pol.params.logstd = none)
    ∧ (∀ (ac ob n sz : ℤ) (lr : ℚ) (wf : ℕ → ℕ → ℕ → ℚ) (bf : ℕ → ℕ → ℚ)
      (pol : MLPPolicy), MLPPolicy.init ac ob false n sz lr wf bf = .ok pol →
      pol.params.discrete = false ∧ pol.params.mean_net.isSome = true
      ∧ pol.params.logstd.isSome = true ∧ pol.params.logits_net = none)
    ∧ (∀ (M : NumModel) (pol : MLPPolicy) (obs : MatA ℚ) (acts : ActIn)
      (adv : List ℚ) (pol2 : MLPPolicy) (diag : List (String × ℚ)),
      MLPPolicyPG.update M pol obs acts adv = .ok (pol2, diag) →
      paramsSig pol2.params = paramsSig pol.params) := by
  refine ⟨?_, ?_, ?_⟩
  · intro ac ob n sz lr wf bf pol h
    unfold MLPPolicy.init at h
    rw [if_pos rfl] at h
    cases hb : build_mlp ob ac n sz wf bf with
    | error e => rw [hb] at h; simp [bind, Except.bind] at h
    | ok net =>
      rw [hb] at h
      simp only [bind, Except.bind, Except.ok.injEq] at h
      rw [← h]
      exact ⟨rfl, rfl, rfl, rfl⟩
  · intro ac ob n sz lr wf bf pol h
    unfold MLPPolicy.init at h
    rw [if_neg (by simp)] at h
    cases hb : build_mlp ob ac n sz wf bf with
    | error e => rw [hb] at h; simp [bind, Except.bind] at h
    | ok net =>
      rw [hb] at h
      simp only [bind, Except.bind] at h
      by_cases hac : ac < 0
      · rw [if_pos hac] at h; simp at h
      · rw [if_neg hac] at h
        simp only [Except.ok.injEq] at h
        rw [← h]
        exact ⟨rfl, rfl, rfl, rfl⟩
  · intro M pol obs acts adv pol2 diag hok
    unfold MLPPolicyPG.update at hok
    cases hq : pgLossGen qOps M pol.params.logits_net pol.params.mean_net
        pol.params.logstd pol.params.discrete obs acts adv with
    | error e => rw [hq] at hok; simp [bind, Except.bind] at hok
    | ok loss =>
      rw [hq] at hok
      simp only [bind, Except.bind, Except.ok.injEq, Prod.mk.injEq] at hok
      obtain ⟨h1, h2⟩ := hok
      rw [← h1]
      obtain ⟨hnets1, hnets2⟩ := pgLossGen_ok_nets hq
      by_cases hdisc : pol.params.discrete = true
      · obtain ⟨n, hn⟩ := hnets1 hdisc
        have hact : activeNet pol.params = n := by
          unfold activeNet; rw [hdisc, hn]; rfl
        rw [if_pos hdisc]
        unfold paramsSig
        simp [hn, adamNetStep_sig, hact]
      · have hdisc2 : pol.params.discrete = false := by
          cases hb : pol.params.discrete
          · rfl
          · exact absurd hb hdisc
        obtain ⟨⟨n, hn⟩, s, hs⟩ := hnets2 hdisc2
        have hact : activeNet pol.params = n := by
          unfold activeNet; rw [hdisc2, hn]; rfl
        have hstd : pol.params.logstd.getD [] = s := by rw [hs]; rfl
        rw [if_neg hdisc]
        unfold paramsSig
        simp [hn, hs, adamNetStep_sig, adamVecStep_length, hact, hstd]

/-- A continuous policy (ac_dim 1, ob_dim 1) as produced by init with
discrete = false: a mean net and a zero-initialised logstd. -/
def polCont : MLPPolicy :=
  { params := { ac_dim := 1, ob_dim := 1, logits_net := none,
                mean_net := some [⟨[[1]], [0]⟩], logstd := some [0],
                discrete := false },
    opt := ⟨0, [⟨[[0]], [0]⟩], [⟨[[0]], [0]⟩], [0], [0]⟩, lr := 1 }

/-- Witness for C6 at concrete inputs: the discrete C1 policy, the
continuous policy above, and the zero-advantage update of C5. -/
theorem C6_discrete_subset_invariant_witness :
    (polC1.params.discrete = true ∧ polC1.params.logits_net.isSome = true
      ∧ polC1.params.mean_net = none ∧ polC1.params.logstd = none)
    ∧ (polCont.params.discrete = false ∧ polCont.params.mean_net.isSome = true
      ∧ polCont.params.logstd.isSome = true ∧ polCont.params.logits_net = none)
    ∧ paramsSig polC5after.params = paramsSig polC5.params :=
  ⟨C6_discrete_subset_invariant.1 2 1 0 0 1 wInc bZero polC1 (by decide),
   C6_discrete_subset_invariant.2.1 1 1 0 0 1 wInc bZero polCont (by decide),
   C6_discrete_subset_invariant.2.2 testModel polC5 [[0]] (.disc [0]) [0] polC5after
     [("Actor Loss", 0)] (by decide)⟩

/-- On a continuous policy, a batch-count mismatch between
observations and actions (both at least 2) makes the update fail with
a shape error before any parameter step: Normal.log_prob broadcasts
the action batch against the mean batch and the row counts are
incompatible. -/
theorem contMismatchRaises (M : NumModel) (pol : MLPPolicy) (obs : MatA ℚ)
    (a : MatA ℚ) (adv : List ℚ) (net : MLPq) (ls : List ℚ)
    (hd : pol.params.discrete = false) (hnet : pol.params.mean_net = some net)
    (hls : pol.params.logstd = some ls)
    (hlen : a.length ≠ obs.length) (ha : 2 ≤ a.length) (hb : 2 ≤ obs.length) :
    MLPPolicyPG.update M pol obs (.cont a) adv = .error Err.shape := by
  have hloss : pgLossGen qOps M pol.params.logits_net pol.params.mean_net
      pol.params.logstd pol.params.discrete obs (.cont a) adv = .error Err.shape := by
    rw [hd, hnet, hls]
    cases h2 : mlpApplyBatch qOps M net (obs.map (List.map qOps.cst)) with
    | none =>
      simp only [pgLossGen, forwardNets, h2]
      rfl
    | some means =>
      have hmlen : means.length = obs.length := by
        have := optMapList_length h2
        simpa [mlpApplyBatch] using this
      have hbd : bdim (matRows (a.map (List.map qOps.cst))) (matRows means) = none := by
        have h1 : matRows (a.map (List.map qOps.cst)) = a.length := by
          simp [matRows]
        have h3 : matRows means = obs.length := hmlen
        rw [h1, h3]
        exact bdim_none hlen (by omega) (by omega)
      simp only [pgLossGen, forwardNets, h2, bind, Except.bind,
        Bool.false_eq_true, if_false]
      simp only [normalLogProb, hbd, Option.bind_eq_bind, Option.none_bind, Option.elim]
  unfold MLPPolicyPG.update
  rw [hloss]
  rfl

theorem bdim_right_one (a : ℕ) : bdim a 1 = some a := by
  unfold bdim
  by_cases h : a = 1
  · simp [h]
  · simp [h]

theorem bdim_left_one (b : ℕ) : bdim 1 b = some b := by
  unfold bdim
  by_cases h : (1 : ℕ) = b
  · subst h; simp
  · simp [h]

/-- ValueCritic.update never raises on a target-count mismatch: the
(N, 1) prediction matrix is broadcast-compatible with a 1-D target
batch of ANY length, so the loss computes and the Adam step runs. -/
theorem criticAnyTargetsOk (M : NumModel) (c : ValueCritic) (obs : MatA ℚ)
    (q : List ℚ) (y : MatA ℚ) (hy : ValueCritic.forward M c obs = some y)
    (hcols : matCols y = 1) :
    isOkE (ValueCritic.update M c obs q) = true := by
  have hy2 : mlpApplyBatch qOps M c.network (obs.map (List.map qOps.cst)) = some y := by
    have hobs : obs.map (List.map qOps.cst) = obs := by simp [qOps]
    rw [hobs]
    simpa [ValueCritic.forward] using hy
  have h1 : bdim (matRows y) (matRows [q.map qOps.cst]) = some (matRows y) :=
    bdim_right_one _
  have h2 : bdim (matCols y) (matCols [q.map qOps.cst]) = some (q.map qOps.cst).length := by
    rw [hcols]
    exact bdim_left_one _
  have hbc : ∃ d, broadcastOp qOps qOps.sub y [q.map qOps.cst] = some d := by
    unfold broadcastOp
    simp only [h1, h2, Option.bind_eq_bind, Option.some_bind]
    exact ⟨_, rfl⟩
  rcases hbc with ⟨d, hd⟩
  have hloss : ∃ L, mseLossGen qOps M c.network obs q = .ok L := by
    unfold mseLossGen
    simp only [hy2, Option.elim, bind, Except.bind, hd]
    exact ⟨_, rfl⟩
  rcases hloss with ⟨L, hL⟩
  unfold ValueCritic.update
  rw [hL]
  rfl

/-- Claim C3, amended: every error return is all-or-nothing (it
carries no new state, matching torch raising before optimizer.step()).
A policy update whose observation and action batch counts mismatch
(both at least 2) fails fast with a shape error, in discrete and in
continuous mode alike.  But there is silent broadcasting beyond the
documented advantage rule, in both components the original claim
covers: a discrete-policy advantage-count mismatch is
broadcast-compatible ((1,N) against (M,1)) and the update completes
and mutates parameters, and ValueCritic.update never raises on a
target-count mismatch at all — the (N,1) predictions broadcast
against a 1-D target batch of any length (see the counterexample for
both mutation facts). -/
theorem C3_mismatch_behavior :
    (∀ (M : NumModel) (pol : MLPPolicy) (obs : MatA ℚ) (a : List ℕ) (adv : List ℚ)
      (net : MLPq), pol.params.discrete = true → pol.params.logits_net = some net →
      a.length ≠ obs.length → 2 ≤ a.length → 2 ≤ obs.length →
      MLPPolicyPG.update M pol obs (.disc a) adv = .error Err.shape)
    ∧ (∀ (M : NumModel) (pol : MLPPolicy) (obs : MatA ℚ) (a : MatA ℚ) (adv : List ℚ)
      (net : MLPq) (ls : List ℚ), pol.params.discrete = false →
      pol.params.mean_net = some net → pol.params.logstd = some ls →
      a.length ≠ obs.length → 2 ≤ a.length → 2 ≤ obs.length →
      MLPPolicyPG.update M pol obs (.cont a) adv = .error Err.shape)
    ∧ (∀ (M : NumModel) (c : ValueCritic) (obs : MatA ℚ) (q : List ℚ) (y : MatA ℚ),
      ValueCritic.forward M c obs = some y → matCols y = 1 →
      isOkE (ValueCritic.update M c obs q) = true) :=
  ⟨fun M pol obs a adv net hd hn hl ha hb =>
    discMismatchRaises M pol obs a adv net hd hn hl ha hb,
   fun M pol obs a adv net ls hd hn hls hl ha hb =>
    contMismatchRaises M pol obs a adv net ls hd hn hls hl ha hb,
   fun M c obs q y hy hc => criticAnyTargetsOk M c obs q y hy hc⟩

/-- Witness for the amended C3 at concrete inputs: the discrete C1
policy and the continuous policy with 3 observations vs 2 actions
both raise; the C2 critic accepts 2 observations vs 3 targets. -/
theorem C3_mismatch_behavior_witness :
    MLPPolicyPG.update testModel polC1 [[1], [1], [1]] (.disc [0, 1]) [1, 0, 0]
      = .error Err.shape
    ∧ MLPPolicyPG.update testModel polCont [[1], [1], [1]] (.cont [[0], [0]]) [1, 0, 0]
      = .error Err.shape
    ∧ isOkE (ValueCritic.update testModel criticC2 [[1], [2]] [5, 6, 7]) = true :=
  ⟨C3_mismatch_behavior.1 testModel polC1 [[1], [1], [1]] [0, 1] [1, 0, 0]
    [⟨[[1], [2]], [0, 0]⟩] rfl rfl (by decide) (by decide) (by decide),
   C3_mismatch_behavior.2.1 testModel polCont [[1], [1], [1]] [[0], [0]] [1, 0, 0]
    [⟨[[1]], [0]⟩] [0] rfl rfl rfl (by decide) (by decide) (by decide),
   C3_mismatch_behavior.2.2 testModel criticC2 [[1], [2]] [5, 6, 7] [[1], [2]]
    (by decide) (by decide)⟩
